import Mathlib

/-!
Shallow embedding of the IDX binary tensor reader (`src/mnist/idx.rs` of the
`neural-network-deep-learning` repository), together with theorems settling
the specification claims about it.

Modelling conventions:
* A byte is a `Nat` (values 0..255 in real streams; the embedding never
  depends on the bound).
* The underlying byte source (`Read + ReadBytesExt`) is a `Source`: a list of
  remaining bytes plus an optional I/O error kind produced once the bytes run
  out (`tail = none` means a clean end of stream, which `read_exact` style
  reads report as an `UnexpectedEof` I/O error, exactly as `std::io` does).
* Fallible Rust functions returning `Result<T, MnistError>` become
  `Outcome T`; the extra `Outcome.panic` constructor models a Rust panic
  (`expect`, a failed `assert!`, or an out-of-range slice index).
* Machine-integer arithmetic (`usize`/`u32` products) is modelled over `Nat`:
  in a debug build Rust aborts on overflow rather than returning a wrapped
  value, so every value actually returned by the source functions equals the
  mathematical product modelled here.
* `MnistError` is modelled with an `InvalidElementType` constructor: the enum
  in `src/mnist/error.rs` omits it although `idx.rs` constructs it; the spec
  directs that Invalid-element-type be treated as a first-class error kind.
* Each Rust generic instantiation `ElementScalar for T` is modelled by a
  `ScalarImpl` value recording the unique compatible `ElementType` and the
  number of bytes one decoded scalar consumes; a decoded scalar value is
  represented by the big-endian natural number of its bytes (a bijective
  encoding of the Rust value for each of the six scalar kinds).
-/

namespace Idx

/-- Kind of an underlying `std::io` error; the reader code only ever inspects
whether the kind equals `UnexpectedEof`. -/
inductive IoErrorKind : Type where
  | unexpectedEof : IoErrorKind
  | other : IoErrorKind
deriving DecidableEq, Repr

/-- Error type of the crate (`MnistError` in `src/mnist/error.rs`), extended
with `InvalidElementType`, which `idx.rs` constructs (see module docstring). -/
inductive MnistError : Type where
  | Io : IoErrorKind → MnistError
  | InvalidFormat : MnistError
  | Parse : MnistError
  | InvalidElementType : MnistError
deriving DecidableEq, Repr

/-- Result of running a fallible Rust computation: a returned value, a
returned error, or a panic. -/
inductive Outcome (α : Type) : Type where
  | ok : α → Outcome α
  | err : MnistError → Outcome α
  | panic : Outcome α
deriving DecidableEq, Repr

/-- Element type tags of the IDX format (`ElementType` in `idx.rs`). -/
inductive ElementType : Type where
  | U8 | I8 | I16 | I32 | F32 | F64
deriving DecidableEq, Repr

/-- `ElementType::from_value`: maps the six recognized tag bytes, rejecting
everything else with `InvalidElementType`. -/
def ElementType.from_value (val : Nat) : Outcome ElementType :=
  match val with
  | 0x08 => .ok .U8
  | 0x09 => .ok .I8
  | 0x0b => .ok .I16
  | 0x0c => .ok .I32
  | 0x0d => .ok .F32
  | 0x0e => .ok .F64
  | _ => .err .InvalidElementType

/-- `ElementType::size_in_bytes`. -/
def ElementType.size_in_bytes : ElementType → Nat
  | .U8 => 1
  | .I8 => 1
  | .I16 => 2
  | .I32 => 4
  | .F32 => 4
  | .F64 => 8

/-- Parsed IDX header (`IdxHeader` in `idx.rs`). -/
structure IdxHeader : Type where
  elem_type : ElementType
  dimension_sizes : List Nat
deriving DecidableEq, Repr

/-- The byte source underlying a reader: the remaining bytes, plus the I/O
error kind reads report after the bytes are exhausted (`none` = clean
end of stream, reported as `UnexpectedEof` by exact reads). -/
structure Source : Type where
  bytes : List Nat
  tail : Option IoErrorKind
deriving DecidableEq, Repr

/-- Big-endian value of a byte list (how `byteorder::BigEndian` assembles a
multi-byte scalar). -/
def beNat (l : List Nat) : Nat :=
  l.foldl (fun a b => a * 256 + b) 0

/-- Read exactly `n` bytes from the source (`read_exact` semantics, used by
all the `byteorder` fixed-width reads): if fewer than `n` bytes remain, the
read fails with the tail error, or with `UnexpectedEof` on a clean end. -/
def readExact (n : Nat) (s : Source) : Outcome (List Nat × Source) :=
  if s.bytes.length < n then
    .err (.Io (s.tail.getD .unexpectedEof))
  else
    .ok (s.bytes.take n, ⟨s.bytes.drop n, s.tail⟩)

/-- One Rust `ElementScalar` implementation: its unique compatible element
type and the number of bytes one decoded scalar consumes (`u8`:1, `i8`:1,
`i16`:2, `i32`:4, `f32`:4, `f64`:8). -/
structure ScalarImpl : Type where
  ty : ElementType
  width : Nat
deriving DecidableEq, Repr

/-- The `ElementScalar for u8` implementation. -/
def u8Impl : ScalarImpl := ⟨.U8, 1⟩
/-- The `ElementScalar for i8` implementation. -/
def i8Impl : ScalarImpl := ⟨.I8, 1⟩
/-- The `ElementScalar for i16` implementation. -/
def i16Impl : ScalarImpl := ⟨.I16, 2⟩
/-- The `ElementScalar for i32` implementation. -/
def i32Impl : ScalarImpl := ⟨.I32, 4⟩
/-- The `ElementScalar for f32` implementation. -/
def f32Impl : ScalarImpl := ⟨.F32, 4⟩
/-- The `ElementScalar for f64` implementation. -/
def f64Impl : ScalarImpl := ⟨.F64, 8⟩

/-- `T::is_elem_type_compatible(ty)`: `Ok(())` when the declared type equals
the implementation's own type, `Err(InvalidElementType)` otherwise (every one
of the six impls follows this shape). -/
def is_elem_type_compatible (impl : ScalarImpl) (ty : ElementType) : Outcome Unit :=
  if ty = impl.ty then .ok () else .err .InvalidElementType

/-- `T::read_element`: decode one scalar by reading `width` bytes big-endian;
the decoded value is represented by the big-endian natural of those bytes. -/
def read_element (impl : ScalarImpl) (s : Source) : Outcome (Nat × Source) :=
  match readExact impl.width s with
  | .ok (bs, s') => .ok (beNat bs, s')
  | .err e => .err e
  | .panic => .panic

/-- Loop body of `IdxReader::read_header`: read `n` big-endian `u32`
dimension sizes in declared order. -/
def readDims : Nat → Source → Outcome (List Nat × Source)
  | 0, s => .ok ([], s)
  | n + 1, s =>
    match readExact 4 s with
    | .err e => .err e
    | .panic => .panic
    | .ok (b4, s') =>
      match readDims n s' with
      | .err e => .err e
      | .panic => .panic
      | .ok (ds, s'') => .ok (beNat b4 :: ds, s'')

/-- `IdxReader::read_header`: 2-byte reserved field (must be zero, else
`InvalidFormat`), 1 tag byte mapped via `ElementType::from_value`, 1
dimension-count byte, then that many big-endian `u32` dimension sizes. -/
def read_header (s : Source) : Outcome (IdxHeader × Source) :=
  match readExact 2 s with
  | .err e => .err e
  | .panic => .panic
  | .ok (zb, s1) =>
    if beNat zb ≠ 0 then .err .InvalidFormat
    else
      match readExact 1 s1 with
      | .err e => .err e
      | .panic => .panic
      | .ok (tb, s2) =>
        match ElementType.from_value (beNat tb) with
        | .err e => .err e
        | .panic => .panic
        | .ok ty =>
          match readExact 1 s2 with
          | .err e => .err e
          | .panic => .panic
          | .ok (nb, s3) =>
            match readDims (beNat nb) s3 with
            | .err e => .err e
            | .panic => .panic
            | .ok (ds, s4) => .ok (⟨ty, ds⟩, s4)

/-- `IdxReader::num_elems`: running product over all dimension sizes,
starting from 1. -/
def num_elems (h : IdxHeader) : Nat :=
  h.dimension_sizes.foldl (fun a b => a * b) 1

/-- `IdxReader::item_size`: running product over `dimension_sizes[1..]`.
Slicing `[1..]` on an empty vector panics in Rust (range start 1 out of range
for a slice of length 0), so the rank-0 case is a panic. -/
def item_size (h : IdxHeader) : Outcome Nat :=
  match h.dimension_sizes with
  | [] => .panic
  | _ :: rest => .ok (rest.foldl (fun a b => a * b) 1)

/-- `IdxReader::get_item_geometry`: empty at rank 0, the whole
`dimension_sizes` at rank 1, `dimension_sizes[1..]` at rank ≥ 2. -/
def get_item_geometry (h : IdxHeader) : List Nat :=
  match h.dimension_sizes.length with
  | 0 => []
  | 1 => h.dimension_sizes
  | _ + 2 => h.dimension_sizes.drop 1

/-- `IdxReader::assert_elem_type_compatible::<T>`: `expect` on the
compatibility check — a panic (not a returned error) on mismatch. -/
def assert_elem_type_compatible (impl : ScalarImpl) (h : IdxHeader) : Outcome Unit :=
  match is_elem_type_compatible impl h.elem_type with
  | .ok _ => .ok ()
  | _ => .panic

/-- Loop body of `IdxReader::read_elements`: decode `n` scalars in order. -/
def readElemsLoop (impl : ScalarImpl) : Nat → Source → Outcome (List Nat × Source)
  | 0, s => .ok ([], s)
  | n + 1, s =>
    match read_element impl s with
    | .err e => .err e
    | .panic => .panic
    | .ok (v, s') =>
      match readElemsLoop impl n s' with
      | .err e => .err e
      | .panic => .panic
      | .ok (vs, s'') => .ok (v :: vs, s'')

/-- `IdxReader::read_elements` with a buffer of length `n`: first the
compatibility assertion (panics on mismatch), then `n` in-order decodes; the
result is the filled buffer. -/
def read_elements (impl : ScalarImpl) (h : IdxHeader) (n : Nat) (s : Source) :
    Outcome (List Nat × Source) :=
  match assert_elem_type_compatible impl h with
  | .ok _ => readElemsLoop impl n s
  | _ => .panic

/-- An owned decoded sub-tensor (`Item<T>` in `idx.rs`). -/
structure Item : Type where
  elems : List Nat
  dimension_sizes : List Nat
deriving DecidableEq, Repr

/-- `Item::total_elements`: running product over the item's own dimension
sizes. -/
def total_elements (it : Item) : Nat :=
  it.dimension_sizes.foldl (fun a b => a * b) 1

/-- `IdxReader::read_item`: allocate `item_size()` elements, fill them via
`read_elements`, and attach the item geometry. -/
def read_item (impl : ScalarImpl) (h : IdxHeader) (s : Source) :
    Outcome (Item × Source) :=
  match item_size h with
  | .err e => .err e
  | .panic => .panic
  | .ok n =>
    match read_elements impl h n s with
    | .err e => .err e
    | .panic => .panic
    | .ok (es, s') => .ok (⟨es, get_item_geometry h⟩, s')

/-- `IdxReader::read_items_to_end`, fuelled (the Rust loop does not terminate
when an item consumes zero bytes, so the embedding returns `none` when the
fuel runs out): keep calling `read_item`, appending successes to the
collector; break with `Ok` on an `UnexpectedEof` I/O error; return any other
error. -/
def read_items_to_end (impl : ScalarImpl) (h : IdxHeader) :
    Nat → Source → List Item → Option (Outcome (List Item))
  | 0, _, _ => none
  | fuel + 1, s, acc =>
    match read_item impl h s with
    | .ok (x, s') => read_items_to_end impl h fuel s' (acc ++ [x])
    | .err (.Io .unexpectedEof) => some (.ok acc)
    | .err e => some (.err e)
    | .panic => some .panic

/-- Construction of the `Elements<T>` adapter (`IdxReader::elements`): the
compatibility assertion runs up front (panics on mismatch). -/
def elements_mk (impl : ScalarImpl) (h : IdxHeader) : Outcome Unit :=
  assert_elem_type_compatible impl h

/-- Construction of the `Items<T>` adapter (`IdxReader::items`): the
compatibility assertion plus `assert!(dimensions().len() > 1)`. -/
def items_mk (impl : ScalarImpl) (h : IdxHeader) : Outcome Unit :=
  match assert_elem_type_compatible impl h with
  | .ok _ => if h.dimension_sizes.length > 1 then .ok () else .panic
  | _ => .panic

/-- One pull of a lazy sequence over scalars, mirroring Rust's
`Option<Result<T>>`: `done` = `None`, `val` = `Some(Ok _)`,
`fail` = `Some(Err _)`; `panicked` records a panic escaping the pull. -/
inductive ElemPull : Type where
  | done : ElemPull
  | val : Nat → ElemPull
  | fail : MnistError → ElemPull
  | panicked : ElemPull
deriving DecidableEq, Repr

/-- `<Elements<T> as Iterator>::next`: one scalar decode; an `UnexpectedEof`
I/O failure ends the sequence (`None`), any other failure is yielded. -/
def elements_next (impl : ScalarImpl) (s : Source) : ElemPull × Source :=
  match read_element impl s with
  | .ok (v, s') => (.val v, s')
  | .err (.Io k) =>
    if k = .unexpectedEof then (.done, s) else (.fail (.Io k), s)
  | .err e => (.fail e, s)
  | .panic => (.panicked, s)

/-- Pull the `Elements` sequence `n` times, collecting the results. -/
def pull_elements (impl : ScalarImpl) : Nat → Source → List ElemPull × Source
  | 0, s => ([], s)
  | n + 1, s =>
    let (r, s') := elements_next impl s
    let (rs, s'') := pull_elements impl n s'
    (r :: rs, s'')

/-- One pull of the `Items<T>` sequence, mirroring Rust's
`Option<Result<Item<T>>>`. -/
inductive ItemPull : Type where
  | done : ItemPull
  | val : Item → ItemPull
  | fail : MnistError → ItemPull
  | panicked : ItemPull
deriving DecidableEq, Repr

/-- `<Items<T> as Iterator>::next`: one `read_item`; an `UnexpectedEof` I/O
failure ends the sequence (`None`), any other failure is yielded. -/
def items_next (impl : ScalarImpl) (h : IdxHeader) (s : Source) :
    ItemPull × Source :=
  match read_item impl h s with
  | .ok (it, s') => (.val it, s')
  | .err (.Io k) =>
    if k = .unexpectedEof then (.done, s) else (.fail (.Io k), s)
  | .err e => (.fail e, s)
  | .panic => (.panicked, s)

/-- The scalars a payload holds, in payload order: scalar `i` is the
big-endian value of bytes `[width*i, width*(i+1))`. -/
def decodeElems (impl : ScalarImpl) (bs : List Nat) (n : Nat) : List Nat :=
  (List.range n).map fun i => beNat ((bs.drop (impl.width * i)).take impl.width)

/-- The `k` complete items a payload holds: item `i` decodes `sz` scalars
starting at byte `i * (sz * width)` and carries the header's item geometry. -/
def decodeItems (impl : ScalarImpl) (h : IdxHeader) (sz k : Nat) (bs : List Nat) :
    List Item :=
  (List.range k).map fun i =>
    ⟨decodeElems impl (bs.drop (i * (sz * impl.width))) sz, get_item_geometry h⟩

/-! ### Helper lemmas -/

/-- Folding multiplication from an accumulator factors the accumulator out
of the list product (the running-product loops of `num_elems`, `item_size`
and `total_elements` compute the list product). -/
theorem foldl_mul_eq (l : List Nat) : ∀ a : Nat,
    l.foldl (fun x y => x * y) a = a * l.prod := by
  induction l with
  | nil => intro a; simp
  | cons b t ih =>
    intro a
    simp only [List.foldl_cons, List.prod_cons, ih (a * b)]
    ring

/-- Decoding `n + 1` scalars splits as the first scalar followed by decoding
`n` scalars from the rest of the payload. -/
theorem decodeElems_cons (impl : ScalarImpl) (bs : List Nat) (n : Nat) :
    decodeElems impl bs (n + 1) =
      beNat (bs.take impl.width) ::
        decodeElems impl (bs.drop impl.width) n := by
  simp only [decodeElems, List.range_succ_eq_map, List.map_cons, List.map_map,
    Nat.mul_zero, List.drop_zero]
  congr 1
  apply List.map_congr_left
  intro i _
  simp only [Function.comp_apply, Nat.succ_eq_add_one, List.drop_drop]
  have hx : impl.width * (i + 1) = impl.width + impl.width * i := by ring
  rw [hx]

/-- Decoding `k + 1` items splits as the first item followed by decoding `k`
items from the rest of the payload. -/
theorem decodeItems_cons (impl : ScalarImpl) (h : IdxHeader) (sz k : Nat)
    (bs : List Nat) :
    decodeItems impl h sz (k + 1) bs =
      Item.mk (decodeElems impl bs sz) (get_item_geometry h) ::
        decodeItems impl h sz k (bs.drop (sz * impl.width)) := by
  simp only [decodeItems, List.range_succ_eq_map, List.map_cons, List.map_map,
    Nat.zero_mul, List.drop_zero]
  congr 1
  apply List.map_congr_left
  intro i _
  simp only [Function.comp_apply, Nat.succ_eq_add_one, List.drop_drop]
  have hx : (i + 1) * (sz * impl.width) =
      sz * impl.width + i * (sz * impl.width) := by ring
  rw [hx]

/-- A successful element loop returns exactly as many scalars as requested. -/
theorem readElemsLoop_length (impl : ScalarImpl) : ∀ (n : Nat) (s : Source)
    (vs : List Nat) (s' : Source),
    readElemsLoop impl n s = .ok (vs, s') → vs.length = n := by
  intro n
  induction n with
  | zero =>
    intro s vs s' hr
    simp only [readElemsLoop] at hr
    cases hr
    rfl
  | succ m ih =>
    intro s vs s' hr
    simp only [readElemsLoop] at hr
    split at hr
    · exact Outcome.noConfusion hr
    · exact Outcome.noConfusion hr
    · rename_i v s2 heq
      cases hcall : readElemsLoop impl m s2 with
      | ok p =>
        obtain ⟨vs2, s3⟩ := p
        rw [hcall] at hr
        cases hr
        simp only [List.length_cons, ih s2 vs2 _ hcall]
      | err e =>
        rw [hcall] at hr
        exact Outcome.noConfusion hr
      | panic =>
        rw [hcall] at hr
        exact Outcome.noConfusion hr

/-- With enough bytes available, the element loop succeeds and returns the
decoded scalars in payload order, consuming exactly `n * width` bytes. -/
theorem readElemsLoop_ok (impl : ScalarImpl) :
    ∀ (n : Nat) (bs : List Nat) (t : Option IoErrorKind),
    n * impl.width ≤ bs.length →
    readElemsLoop impl n ⟨bs, t⟩ =
      .ok (decodeElems impl bs n, ⟨bs.drop (n * impl.width), t⟩) := by
  intro n
  induction n with
  | zero =>
    intro bs t _
    simp [readElemsLoop, decodeElems]
  | succ m ih =>
    intro bs t hlen
    have hx : (m + 1) * impl.width = m * impl.width + impl.width := by ring
    rw [hx] at hlen
    have hwle : ¬ bs.length < impl.width := by omega
    have hre : read_element impl ⟨bs, t⟩ =
        .ok (beNat (bs.take impl.width), ⟨bs.drop impl.width, t⟩) := by
      simp [read_element, readExact, hwle]
    have hrest : m * impl.width ≤ (bs.drop impl.width).length := by
      simp only [List.length_drop]
      omega
    have hy : (m + 1) * impl.width = impl.width + m * impl.width := by ring
    simp only [readElemsLoop, hre, ih (bs.drop impl.width) t hrest]
    rw [decodeElems_cons]
    simp only [List.drop_drop]
    rw [hy]

/-- With a matching scalar type and enough bytes available, `read_item`
succeeds, returning the decoded scalars with the item geometry attached and
consuming exactly one item's worth of bytes. -/
theorem read_item_ok (impl : ScalarImpl) (h : IdxHeader)
    (hc : impl.ty = h.elem_type) (sz : Nat)
    (hsz : item_size h = .ok sz) (bs : List Nat) (t : Option IoErrorKind)
    (hlen : sz * impl.width ≤ bs.length) :
    read_item impl h ⟨bs, t⟩ =
      .ok (⟨decodeElems impl bs sz, get_item_geometry h⟩,
           ⟨bs.drop (sz * impl.width), t⟩) := by
  have hassert : assert_elem_type_compatible impl h = .ok () := by
    simp [assert_elem_type_compatible, is_elem_type_compatible, hc.symm]
  simp only [read_item, hsz, read_elements, hassert,
    readElemsLoop_ok impl sz bs t hlen]

/-- A positive product has a positive right factor. -/
theorem width_pos_of_mul_pos (a b : Nat) (hpos : 0 < a * b) :
    0 < a ∧ 0 < b := by
  rcases Nat.eq_zero_or_pos a with ha | ha
  · rw [ha, Nat.zero_mul] at hpos
    exact absurd hpos (by simp)
  · rcases Nat.eq_zero_or_pos b with hb | hb
    · rw [hb, Nat.mul_zero] at hpos
      exact absurd hpos (by simp)
    · exact ⟨ha, hb⟩

/-- On a source with no bytes left, a clean tail and a positive item byte
size, `read_item` fails with an `UnexpectedEof` I/O error. -/
theorem read_item_eof (impl : ScalarImpl) (h : IdxHeader)
    (hc : impl.ty = h.elem_type) (sz : Nat) (hsz : item_size h = .ok sz)
    (hpos : 0 < sz * impl.width) :
    read_item impl h ⟨[], none⟩ = .err (.Io .unexpectedEof) := by
  have hassert : assert_elem_type_compatible impl h = .ok () := by
    simp [assert_elem_type_compatible, is_elem_type_compatible, hc.symm]
  obtain ⟨hszpos, hwpos⟩ := width_pos_of_mul_pos sz impl.width hpos
  obtain ⟨m, rfl⟩ : ∃ m, sz = m + 1 := ⟨sz - 1, by omega⟩
  simp [read_item, hsz, read_elements, hassert, readElemsLoop, read_element,
    readExact, hwpos]

/-- Unfolding step of the `read_items_to_end` loop when `read_item`
succeeds: the item is appended and the loop continues. -/
theorem read_items_step_ok (impl : ScalarImpl) (h : IdxHeader) (fuel : Nat)
    (s s' : Source) (acc : List Item) (x : Item)
    (hr : read_item impl h s = .ok (x, s')) :
    read_items_to_end impl h (fuel + 1) s acc =
      read_items_to_end impl h fuel s' (acc ++ [x]) := by
  simp only [read_items_to_end, hr]

/-- Unfolding step of the `read_items_to_end` loop when `read_item` fails
with an `UnexpectedEof` I/O error: the loop breaks, returning `Ok` with the
items collected so far. -/
theorem read_items_step_eof (impl : ScalarImpl) (h : IdxHeader) (fuel : Nat)
    (s : Source) (acc : List Item)
    (hr : read_item impl h s = .err (.Io .unexpectedEof)) :
    read_items_to_end impl h (fuel + 1) s acc = some (.ok acc) := by
  simp only [read_items_to_end, hr]

/-- Unfolding step of the `read_items_to_end` loop when `read_item` fails
with anything other than an `UnexpectedEof` I/O error: the error is
returned. -/
theorem read_items_step_err (impl : ScalarImpl) (h : IdxHeader) (fuel : Nat)
    (s : Source) (acc : List Item) (e : MnistError)
    (hr : read_item impl h s = .err e) (hne : e ≠ .Io .unexpectedEof) :
    read_items_to_end impl h (fuel + 1) s acc = some (.err e) := by
  cases e with
  | Io k =>
    cases k with
    | unexpectedEof => exact absurd rfl hne
    | other => simp only [read_items_to_end, hr]
  | InvalidFormat => simp only [read_items_to_end, hr]
  | Parse => simp only [read_items_to_end, hr]
  | InvalidElementType => simp only [read_items_to_end, hr]

/-- Full characterization of `read_items_to_end` on a clean source holding
exactly `k` complete items: it returns `Ok` with the `k` decoded items
appended to the collector. -/
theorem read_items_complete (impl : ScalarImpl) (h : IdxHeader)
    (hc : impl.ty = h.elem_type) (sz : Nat) (hsz : item_size h = .ok sz)
    (hpos : 0 < sz * impl.width) :
    ∀ (k : Nat) (bs : List Nat) (acc : List Item),
    bs.length = k * (sz * impl.width) →
    read_items_to_end impl h (k + 1) ⟨bs, none⟩ acc =
      some (.ok (acc ++ decodeItems impl h sz k bs)) := by
  intro k
  induction k with
  | zero =>
    intro bs acc hlen
    have hbs : bs = [] := by
      cases bs with
      | nil => rfl
      | cons a l => simp at hlen
    subst hbs
    rw [read_items_step_eof impl h 0 ⟨[], none⟩ acc
      (read_item_eof impl h hc sz hsz hpos)]
    simp [decodeItems]
  | succ m ih =>
    intro bs acc hlen
    obtain ⟨hszpos, hwpos⟩ := width_pos_of_mul_pos sz impl.width hpos
    have hx : (m + 1) * (sz * impl.width) =
        m * (sz * impl.width) + sz * impl.width := by ring
    have hone : sz * impl.width ≤ bs.length := by
      rw [hlen, hx]
      omega
    have hdrop : (bs.drop (sz * impl.width)).length =
        m * (sz * impl.width) := by
      simp only [List.length_drop, hlen, hx]
      omega
    rw [read_items_step_ok impl h (m + 1) ⟨bs, none⟩
      ⟨bs.drop (sz * impl.width), none⟩ acc
      (Item.mk (decodeElems impl bs sz) (get_item_geometry h))
      (read_item_ok impl h hc sz hsz bs none hone)]
    rw [ih (bs.drop (sz * impl.width))
      (acc ++ [Item.mk (decodeElems impl bs sz) (get_item_geometry h)]) hdrop]
    simp [decodeItems_cons]

/-- A successful `read_elements` returns exactly as many scalars as the
buffer holds. -/
theorem read_elements_length (impl : ScalarImpl) (h : IdxHeader) (n : Nat)
    (s : Source) (es : List Nat) (s2 : Source)
    (hre : read_elements impl h n s = .ok (es, s2)) : es.length = n := by
  simp only [read_elements] at hre
  cases ha : assert_elem_type_compatible impl h with
  | ok u =>
    rw [ha] at hre
    exact readElemsLoop_length impl n s es s2 hre
  | err e =>
    rw [ha] at hre
    exact Outcome.noConfusion hre
  | panic =>
    rw [ha] at hre
    exact Outcome.noConfusion hre

/-- Inversion of a successful `read_item`: the returned item carries the
header's item geometry, and its element list has exactly `item_size` many
entries. -/
theorem read_item_ok_inv (impl : ScalarImpl) (h : IdxHeader) (s s' : Source)
    (x : Item) (hr : read_item impl h s = .ok (x, s')) :
    x.dimension_sizes = get_item_geometry h
    ∧ item_size h = .ok x.elems.length := by
  cases hsz : item_size h with
  | panic =>
    simp only [read_item, hsz] at hr
    exact Outcome.noConfusion hr
  | err e =>
    simp only [read_item, hsz] at hr
    exact Outcome.noConfusion hr
  | ok n =>
    simp only [read_item, hsz] at hr
    cases hre : read_elements impl h n s with
    | ok p =>
      obtain ⟨es, s2⟩ := p
      rw [hre] at hr
      cases hr
      refine ⟨rfl, ?_⟩
      exact congrArg Outcome.ok (read_elements_length impl h n s es _ hre).symm
    | err e =>
      rw [hre] at hr
      exact Outcome.noConfusion hr
    | panic =>
      rw [hre] at hr
      exact Outcome.noConfusion hr

/-- A non-zero 2-byte reserved field makes `read_header` fail with
`InvalidFormat`, whatever follows. -/
theorem read_header_bad_magic (x y : Nat) (rest : List Nat)
    (t : Option IoErrorKind) (hxy : ¬(x = 0 ∧ y = 0)) :
    read_header ⟨x :: y :: rest, t⟩ = .err .InvalidFormat := by
  have hlt : ¬ (x :: y :: rest).length < 2 := by
    simp only [List.length_cons]
    omega
  have hre : readExact 2 ⟨x :: y :: rest, t⟩ = .ok ([x, y], ⟨rest, t⟩) := by
    unfold readExact
    rw [if_neg hlt]
    rfl
  have hbe : beNat [x, y] ≠ 0 := by
    simp only [beNat, List.foldl_cons, List.foldl_nil]
    omega
  simp only [read_header, hre]
  rw [if_pos hbe]

/-- An unrecognized tag byte after a valid reserved field makes `read_header`
fail with `InvalidElementType`, whatever follows. -/
theorem read_header_bad_tag (v : Nat) (rest : List Nat)
    (t : Option IoErrorKind)
    (hv : ElementType.from_value v = .err .InvalidElementType) :
    read_header ⟨0 :: 0 :: v :: rest, t⟩ = .err .InvalidElementType := by
  have hlt2 : ¬ (0 :: 0 :: v :: rest : List Nat).length < 2 := by
    simp only [List.length_cons]
    omega
  have hre2 : readExact 2 ⟨0 :: 0 :: v :: rest, t⟩ =
      .ok ([0, 0], ⟨v :: rest, t⟩) := by
    unfold readExact
    rw [if_neg hlt2]
    rfl
  have hlt1 : ¬ (v :: rest : List Nat).length < 1 := by
    simp only [List.length_cons]
    omega
  have hre1 : readExact 1 ⟨v :: rest, t⟩ = .ok ([v], ⟨rest, t⟩) := by
    unfold readExact
    rw [if_neg hlt1]
    rfl
  simp [read_header, hre2, hre1, beNat, hv]

/-- Too few bytes for the requested dimension count makes the dimension loop
fail with the source's I/O error (`UnexpectedEof` on a clean end). -/
theorem readDims_short : ∀ (n : Nat) (bs : List Nat) (t : Option IoErrorKind),
    bs.length < 4 * n →
    readDims n ⟨bs, t⟩ = .err (.Io (t.getD .unexpectedEof)) := by
  intro n
  induction n with
  | zero =>
    intro bs t hlen
    simp at hlen
  | succ m ih =>
    intro bs t hlen
    by_cases h4 : bs.length < 4
    · have hre : readExact 4 ⟨bs, t⟩ = .err (.Io (t.getD .unexpectedEof)) := by
        unfold readExact
        rw [if_pos h4]
      simp [readDims, hre]
    · have hre : readExact 4 ⟨bs, t⟩ = .ok (bs.take 4, ⟨bs.drop 4, t⟩) := by
        unfold readExact
        rw [if_neg h4]
      have hlen2 : (bs.drop 4).length < 4 * m := by
        simp only [List.length_drop]
        omega
      simp [readDims, hre, ih (bs.drop 4) t hlen2]

/-- On a clean empty source with positive width, one pull of the `Elements`
sequence yields `done`. -/
theorem elements_next_done (impl : ScalarImpl) (bs : List Nat)
    (hshort : bs.length < impl.width) :
    elements_next impl ⟨bs, none⟩ = (.done, ⟨bs, none⟩) := by
  have hre : readExact impl.width ⟨bs, none⟩ = .err (.Io .unexpectedEof) := by
    unfold readExact
    rw [if_pos hshort]
    rfl
  simp [elements_next, read_element, hre]

/-- Pulling an exhausted clean source any number of times yields only
`done`. -/
theorem pull_elements_done (impl : ScalarImpl) (hw : 0 < impl.width) :
    ∀ m : Nat, pull_elements impl m ⟨[], none⟩ =
      (List.replicate m .done, ⟨[], none⟩) := by
  intro m
  induction m with
  | zero => simp [pull_elements]
  | succ k ih =>
    simp [pull_elements, elements_next_done impl [] hw, ih,
      List.replicate_succ]

/-- Pulling a clean source holding exactly `n` scalars `n + m` times yields
the `n` decoded scalars in payload order followed by `m` `done`s, ending on
an empty source. -/
theorem pull_elements_main (impl : ScalarImpl) (hw : 0 < impl.width) :
    ∀ (n m : Nat) (bs : List Nat), bs.length = n * impl.width →
    pull_elements impl (n + m) ⟨bs, none⟩ =
      ((decodeElems impl bs n).map .val ++ List.replicate m .done,
       ⟨[], none⟩) := by
  intro n
  induction n with
  | zero =>
    intro m bs hlen
    have hbs : bs = [] := by
      cases bs with
      | nil => rfl
      | cons a l => simp at hlen
    subst hbs
    simp [decodeElems, pull_elements_done impl hw m]
  | succ k ih =>
    intro m bs hlen
    have hx : (k + 1) * impl.width = k * impl.width + impl.width := by ring
    rw [hx] at hlen
    have hnlt : ¬ bs.length < impl.width := by omega
    have hre : readExact impl.width ⟨bs, none⟩ =
        .ok (bs.take impl.width, ⟨bs.drop impl.width, none⟩) := by
      unfold readExact
      rw [if_neg hnlt]
    have hnext : elements_next impl ⟨bs, none⟩ =
        (.val (beNat (bs.take impl.width)), ⟨bs.drop impl.width, none⟩) := by
      simp [elements_next, read_element, hre]
    have hdlen : (bs.drop impl.width).length = k * impl.width := by
      simp only [List.length_drop]
      omega
    have hsum : k + 1 + m = (k + m) + 1 := by omega
    rw [hsum]
    simp only [pull_elements, hnext]
    rw [ih m (bs.drop impl.width) hdlen]
    simp [decodeElems_cons]

/-! ### Claim theorems -/

/-- C10: for the concrete input with header bytes
`00 00 08 02 00 00 00 02 00 00 00 03` followed by the six `u8` payload bytes
`1 2 3 4 5 6`, construction succeeds with element type `U8` and
`dimension_sizes = [2,3]`, `num_elems()` is 6, `item_size()` is 3, and the
item sequence yields exactly the item `[1,2,3]`, then the item `[4,5,6]`,
then terminates. -/
theorem C10_concrete_scenario :
    read_header ⟨[0x00, 0x00, 0x08, 0x02, 0, 0, 0, 2, 0, 0, 0, 3,
        1, 2, 3, 4, 5, 6], none⟩ =
      .ok (⟨.U8, [2, 3]⟩, ⟨[1, 2, 3, 4, 5, 6], none⟩)
    ∧ num_elems ⟨.U8, [2, 3]⟩ = 6
    ∧ item_size ⟨.U8, [2, 3]⟩ = .ok 3
    ∧ items_mk u8Impl ⟨.U8, [2, 3]⟩ = .ok ()
    ∧ items_next u8Impl ⟨.U8, [2, 3]⟩ ⟨[1, 2, 3, 4, 5, 6], none⟩ =
        (.val ⟨[1, 2, 3], [3]⟩, ⟨[4, 5, 6], none⟩)
    ∧ items_next u8Impl ⟨.U8, [2, 3]⟩ ⟨[4, 5, 6], none⟩ =
        (.val ⟨[4, 5, 6], [3]⟩, ⟨[], none⟩)
    ∧ items_next u8Impl ⟨.U8, [2, 3]⟩ ⟨[], none⟩ = (.done, ⟨[], none⟩) := by
  decide

/-- C5: evaluation of `item_size` at the failing rank-0 input. The claim (and
the spec's data-model section) says rank 0 is legal and `item_size()` returns
1 without panicking, but the source slices `dimension_sizes[1..]`, which
panics on an empty vector (range start 1 out of range for length 0); at
rank 1 the function does return 1 as claimed. -/
theorem C5_rank0_divergence :
    item_size ⟨.U8, ([] : List Nat)⟩ = .panic
    ∧ item_size ⟨.U8, [7]⟩ = .ok 1 := by
  decide

/-- C1 counterexample: the stream holds one complete 2-byte item followed by
a single extra byte. The second `read_item` call reads the first byte of the
would-be item successfully and only then hits end-of-stream (mid-item
truncation), yet `read_items_to_end` still terminates normally with `Ok`,
contradicting the claim that a mid-item end-of-stream failure propagates as
an error. -/
theorem C1_counterexample :
    read_item u8Impl ⟨.U8, [3, 2]⟩ ⟨[3], none⟩ = .err (.Io .unexpectedEof)
    ∧ read_element u8Impl ⟨[3], none⟩ = .ok (3, ⟨[], none⟩)
    ∧ read_items_to_end u8Impl ⟨.U8, [3, 2]⟩ 10 ⟨[1, 2, 3], none⟩ [] =
        some (.ok [⟨[1, 2], [2]⟩]) := by
  decide

/-- C2 counterexample: a file declaring 3 `u8` scalars whose payload holds
only 2. The third pull of the flat element sequence yields `done`
(Rust `None`) — a silent short result — and not a yielded error value, as the
claim requires. -/
theorem C2_counterexample :
    pull_elements u8Impl 3 ⟨[1, 2], none⟩ =
      ([.val 1, .val 2, .done], ⟨[], none⟩)
    ∧ ∀ e : MnistError, ElemPull.done ≠ .fail e := by
  exact ⟨by decide, fun e h => nomatch h⟩

/-- C3 counterexample: at rank 1 with `dimension_sizes = [2]`,
`get_item_geometry` returns the whole `[2]`, not `dimension_sizes[1..] = []`
as the claim requires for every rank ≤ 1. -/
theorem C3_counterexample :
    get_item_geometry ⟨.U8, [2]⟩ = [2]
    ∧ get_item_geometry ⟨.U8, [2]⟩ ≠ List.drop 1 [2]
    ∧ get_item_geometry ⟨.U8, [2]⟩ ≠ ([] : List Nat) := by
  decide

/-- C4 counterexample: at rank 1 with `dimension_sizes = [5]` and one
available byte, `read_item` succeeds with a 1-element `elems` but an item
geometry of `[5]`, so `total_elements() = 5 ≠ 1 = elems.len()`. -/
theorem C4_counterexample :
    read_item u8Impl ⟨.U8, [5]⟩ ⟨[9], none⟩ =
      .ok (⟨[9], [5]⟩, ⟨[], none⟩)
    ∧ total_elements ⟨[9], [5]⟩ = 5
    ∧ (Item.mk [9] [5]).elems.length = 1
    ∧ total_elements ⟨[9], [5]⟩ ≠ (Item.mk [9] [5]).elems.length := by
  decide

/-- C6 counterexample: with `dimension_sizes = [0, 3]` (rank 2,
`dimension_sizes[0] = 0`), `item_size()` returns 3 — the product of
`dimension_sizes[1..]` — not the 0 the claim assigns to the quotient. -/
theorem C6_counterexample :
    item_size ⟨.U8, [0, 3]⟩ = .ok 3
    ∧ num_elems ⟨.U8, [0, 3]⟩ = 0
    ∧ item_size ⟨.U8, [0, 3]⟩ ≠ .ok 0 := by
  decide

/-- C1 (amended): `read_items_to_end` terminates normally (`Ok`, with all
previously completed items appended to the collector) the moment `read_item`
fails with an end-of-stream I/O error — at whatever byte of the item the
end-of-stream occurred, first or later; any non-EOF failure aborts the loop
and propagates; a successful `read_item` appends its item and continues. -/
theorem C1_amended (impl : ScalarImpl) (h : IdxHeader) (fuel : Nat)
    (s : Source) (acc : List Item) :
    (read_item impl h s = .err (.Io .unexpectedEof) →
      read_items_to_end impl h (fuel + 1) s acc = some (.ok acc))
    ∧ (∀ e : MnistError, read_item impl h s = .err e →
        e ≠ .Io .unexpectedEof →
        read_items_to_end impl h (fuel + 1) s acc = some (.err e))
    ∧ (∀ (x : Item) (s' : Source), read_item impl h s = .ok (x, s') →
        read_items_to_end impl h (fuel + 1) s acc =
          read_items_to_end impl h fuel s' (acc ++ [x])) :=
  ⟨fun hr => read_items_step_eof impl h fuel s acc hr,
   fun e hr hne => read_items_step_err impl h fuel s acc e hr hne,
   fun x s' hr => read_items_step_ok impl h fuel s s' acc x hr⟩

/-- C1 witness: the three branches of `C1_amended` at concrete inputs — an
empty clean source (EOF break with `Ok`), an empty source with a non-EOF
tail error (propagated), and a source holding one complete item (append and
continue). -/
theorem C1_witness :
    read_items_to_end u8Impl ⟨.U8, [1, 1]⟩ 4 ⟨[], none⟩ [] = some (.ok [])
    ∧ read_items_to_end u8Impl ⟨.U8, [1, 1]⟩ 4 ⟨[], some .other⟩ [] =
        some (.err (.Io .other))
    ∧ read_items_to_end u8Impl ⟨.U8, [1, 1]⟩ 4 ⟨[5], none⟩ [] =
        read_items_to_end u8Impl ⟨.U8, [1, 1]⟩ 3 ⟨[], none⟩ [⟨[5], [1]⟩] :=
  ⟨(C1_amended u8Impl ⟨.U8, [1, 1]⟩ 3 ⟨[], none⟩ []).1 (by decide),
   (C1_amended u8Impl ⟨.U8, [1, 1]⟩ 3 ⟨[], some .other⟩ []).2.1
     (.Io .other) (by decide) (by decide),
   (C1_amended u8Impl ⟨.U8, [1, 1]⟩ 3 ⟨[5], none⟩ []).2.2
     (Item.mk [5] [1]) ⟨[], none⟩ (by decide)⟩

/-- C2 (amended): a truncated element payload makes the flat element
sequence end silently — `next` yields nothing at the first missing scalar (a
clean end of stream within the last, incomplete scalar is converted to
sequence exhaustion, not surfaced as an error) — while a file truncated
exactly on an item boundary makes `read_items_to_end` return all complete
items with `Ok`. -/
theorem C2_amended :
    (∀ (impl : ScalarImpl) (s : Source), s.tail = none →
      s.bytes.length < impl.width →
      elements_next impl s = (.done, s))
    ∧ ∀ (impl : ScalarImpl) (h : IdxHeader) (sz k : Nat) (bs : List Nat),
        impl.ty = h.elem_type →
        item_size h = .ok sz →
        0 < sz * impl.width →
        bs.length = k * (sz * impl.width) →
        read_items_to_end impl h (k + 1) ⟨bs, none⟩ [] =
          some (.ok (decodeItems impl h sz k bs))
        ∧ (decodeItems impl h sz k bs).length = k := by
  constructor
  · intro impl s htail hshort
    obtain ⟨bs, t⟩ := s
    subst htail
    simp only at hshort
    simp [elements_next, read_element, readExact, hshort]
  · intro impl h sz k bs hc hsz hpos hlen
    refine ⟨?_, ?_⟩
    · have := read_items_complete impl h hc sz hsz hpos k bs [] hlen
      simpa using this
    · simp [decodeItems]

/-- C2 witness: the silent-end branch on an empty clean `u8` source, and the
item-boundary branch on a 2×3 `u8` file whose payload holds exactly two
complete items. -/
theorem C2_witness :
    elements_next u8Impl ⟨[], none⟩ = (.done, ⟨[], none⟩)
    ∧ read_items_to_end u8Impl ⟨.U8, [2, 3]⟩ 3 ⟨[1, 2, 3, 4, 5, 6], none⟩ [] =
        some (.ok (decodeItems u8Impl ⟨.U8, [2, 3]⟩ 3 2 [1, 2, 3, 4, 5, 6])) :=
  ⟨(C2_amended).1 u8Impl ⟨[], none⟩ rfl (by decide),
   ((C2_amended).2 u8Impl ⟨.U8, [2, 3]⟩ 3 2 [1, 2, 3, 4, 5, 6] rfl
     (by decide) (by decide) (by decide)).1⟩

/-- C3 (amended): the item geometry equals `dimension_sizes[1..]` at every
rank other than 1 (in particular it is empty at rank 0); at rank 1 it is the
whole one-element `dimension_sizes`, not the empty sequence; and every item a
successful `read_item` returns carries its `dimension_sizes` copied from the
item geometry. -/
theorem C3_amended (h : IdxHeader) :
    (h.dimension_sizes.length ≠ 1 →
      get_item_geometry h = h.dimension_sizes.drop 1)
    ∧ (h.dimension_sizes.length = 1 →
      get_item_geometry h = h.dimension_sizes)
    ∧ ∀ (impl : ScalarImpl) (s s' : Source) (x : Item),
        read_item impl h s = .ok (x, s') →
        x.dimension_sizes = get_item_geometry h := by
  obtain ⟨ty, dims⟩ := h
  refine ⟨?_, ?_, ?_⟩
  · intro hne
    cases dims with
    | nil => rfl
    | cons d ds =>
      cases ds with
      | nil => simp at hne
      | cons e es => rfl
  · intro h1
    cases dims with
    | nil => simp at h1
    | cons d ds =>
      cases ds with
      | nil => rfl
      | cons e es => simp at h1
  · intro impl s s' x hr
    exact (read_item_ok_inv impl ⟨ty, dims⟩ s s' x hr).1

/-- C3 witness: the geometry branches at ranks 2, 1 and the geometry carried
by a concretely read item. -/
theorem C3_witness :
    get_item_geometry ⟨.U8, [2, 3]⟩ = List.drop 1 [2, 3]
    ∧ get_item_geometry ⟨.U8, [2]⟩ = [2]
    ∧ (Item.mk [1, 2, 3] [3]).dimension_sizes =
        get_item_geometry ⟨.U8, [2, 3]⟩ :=
  ⟨(C3_amended ⟨.U8, [2, 3]⟩).1 (by decide),
   (C3_amended ⟨.U8, [2]⟩).2.1 (by decide),
   (C3_amended ⟨.U8, [2, 3]⟩).2.2 u8Impl ⟨[1, 2, 3, 4, 5, 6], none⟩
     ⟨[4, 5, 6], none⟩ (Item.mk [1, 2, 3] [3]) (by decide)⟩

/-- C4 (amended): for every item a successful `read_item` returns,
`total_elements()` equals `elems.len()` whenever the header's rank is not 1;
at rank 1, `total_elements()` equals `num_elems()` (= `dimension_sizes[0]`)
while `elems.len()` is 1, so the two differ whenever
`dimension_sizes[0] ≠ 1`. -/
theorem C4_amended (impl : ScalarImpl) (h : IdxHeader) (s s' : Source)
    (x : Item) (hr : read_item impl h s = .ok (x, s')) :
    (h.dimension_sizes.length ≠ 1 → total_elements x = x.elems.length)
    ∧ (h.dimension_sizes.length = 1 →
        total_elements x = num_elems h ∧ x.elems.length = 1) := by
  obtain ⟨hgeom, hsize⟩ := read_item_ok_inv impl h s s' x hr
  obtain ⟨ty, dims⟩ := h
  cases dims with
  | nil => simp [item_size] at hsize
  | cons d ds =>
    have hlen : x.elems.length = ds.foldl (fun a b => a * b) 1 := by
      simp only [item_size, Outcome.ok.injEq] at hsize
      exact hsize.symm
    constructor
    · intro hne
      cases ds with
      | nil => simp at hne
      | cons e es =>
        have hg : get_item_geometry ⟨ty, d :: e :: es⟩ = e :: es := rfl
        simp only [total_elements, hgeom, hg, hlen]
    · intro h1
      cases ds with
      | nil =>
        have hg : get_item_geometry ⟨ty, [d]⟩ = [d] := rfl
        refine ⟨?_, by simpa using hlen⟩
        simp only [total_elements, num_elems, hgeom, hg]
      | cons e es => simp at h1

/-- C4 witness: a rank-2 item (`total_elements = elems.len() = 3`) and a
rank-1 item (`total_elements = 5`, `elems.len() = 1`), both via concrete
`read_item` calls. -/
theorem C4_witness :
    (total_elements ⟨[1, 2, 3], [3]⟩ = (Item.mk [1, 2, 3] [3]).elems.length)
    ∧ (total_elements ⟨[9], [5]⟩ = num_elems ⟨.U8, [5]⟩
        ∧ (Item.mk [9] [5]).elems.length = 1) :=
  ⟨(C4_amended u8Impl ⟨.U8, [2, 3]⟩ ⟨[1, 2, 3, 4, 5, 6], none⟩
      ⟨[4, 5, 6], none⟩ (Item.mk [1, 2, 3] [3]) (by decide)).1 (by decide),
   (C4_amended u8Impl ⟨.U8, [5]⟩ ⟨[9], none⟩ ⟨[], none⟩
      (Item.mk [9] [5]) (by decide)).2 (by decide)⟩

/-- C6 (amended): `num_elems()` always equals the product of all dimension
sizes; for rank ≥ 1 with `dimension_sizes[0] ≠ 0`, `item_size()` equals
`num_elems() / dimension_sizes[0]`; when `dimension_sizes[0] = 0`,
`num_elems()` is 0 while `item_size()` is the product of
`dimension_sizes[1..]`, which need not be 0. -/
theorem C6_amended (h : IdxHeader) :
    num_elems h = h.dimension_sizes.prod
    ∧ ∀ (d : Nat) (ds : List Nat), h.dimension_sizes = d :: ds →
        (d ≠ 0 → item_size h = .ok (num_elems h / d))
        ∧ (d = 0 → num_elems h = 0 ∧ item_size h = .ok ds.prod) := by
  obtain ⟨ty, dims⟩ := h
  constructor
  · simp only [num_elems]
    rw [foldl_mul_eq, one_mul]
  · intro d ds hdd
    simp only at hdd
    subst hdd
    constructor
    · intro hd0
      simp only [item_size, num_elems, List.foldl_cons]
      congr 1
      rw [foldl_mul_eq, foldl_mul_eq, one_mul, one_mul,
        Nat.mul_div_cancel_left ds.prod (Nat.pos_of_ne_zero hd0)]
    · intro hd0
      subst hd0
      constructor
      · simp only [num_elems, List.foldl_cons]
        rw [foldl_mul_eq]
        simp
      · simp only [item_size]
        congr 1
        rw [foldl_mul_eq, one_mul]

/-- C6 witness: at `dimension_sizes = [4, 3]`, `num_elems()` is the product
12 and `item_size()` is `num_elems() / 4`. -/
theorem C6_witness :
    num_elems ⟨.U8, [4, 3]⟩ = ([4, 3] : List Nat).prod
    ∧ item_size ⟨.U8, [4, 3]⟩ = .ok (num_elems ⟨.U8, [4, 3]⟩ / 4) :=
  ⟨(C6_amended ⟨.U8, [4, 3]⟩).1,
   ((C6_amended ⟨.U8, [4, 3]⟩).2 4 [3] rfl).1 (by decide)⟩

/-- C7 (amended): requesting a decode as a scalar kind whose tag differs
from the file's declared element type makes every entry point —
`read_elements`, the `elements` adapter constructor, the `items` adapter
constructor, and `read_item` — abort with a panic (the `expect` on the
`InvalidElementType` compatibility result), not return an error value; the
outcome is the same for every source, so no payload byte is ever read or
reinterpreted. -/
theorem C7_amended (impl : ScalarImpl) (h : IdxHeader)
    (hne : impl.ty ≠ h.elem_type) :
    (∀ (n : Nat) (s : Source), read_elements impl h n s = .panic)
    ∧ elements_mk impl h = .panic
    ∧ items_mk impl h = .panic
    ∧ ∀ s : Source, read_item impl h s = .panic := by
  obtain ⟨ty, dims⟩ := h
  simp only at hne
  have hassert : assert_elem_type_compatible impl ⟨ty, dims⟩ = .panic := by
    simp only [assert_elem_type_compatible, is_elem_type_compatible]
    rw [if_neg (fun hh => hne hh.symm)]
  refine ⟨?_, ?_, ?_, ?_⟩
  · intro n s
    simp [read_elements, hassert]
  · simp [elements_mk, hassert]
  · simp [items_mk, hassert]
  · intro s
    cases dims with
    | nil => simp [read_item, item_size]
    | cons d ds => simp [read_item, item_size, read_elements, hassert]

/-- C7 witness: an `i8` decode requested from a `U8` file panics through all
entry points at a concrete source. -/
theorem C7_witness :
    read_elements i8Impl ⟨.U8, [2]⟩ 2 ⟨[1, 2], none⟩ = .panic
    ∧ elements_mk i8Impl ⟨.U8, [2]⟩ = .panic
    ∧ items_mk i8Impl ⟨.U8, [2]⟩ = .panic
    ∧ read_item i8Impl ⟨.U8, [2]⟩ ⟨[1, 2], none⟩ = .panic :=
  ⟨(C7_amended i8Impl ⟨.U8, [2]⟩ (by decide)).1 2 ⟨[1, 2], none⟩,
   (C7_amended i8Impl ⟨.U8, [2]⟩ (by decide)).2.1,
   (C7_amended i8Impl ⟨.U8, [2]⟩ (by decide)).2.2.1,
   (C7_amended i8Impl ⟨.U8, [2]⟩ (by decide)).2.2.2 ⟨[1, 2], none⟩⟩

/-- C7 counterexample: requesting an `i8` decode from a file declaring `U8`
makes `read_elements` panic (the `expect` in
`assert_elem_type_compatible`), rather than fail with the
`InvalidElementType` error value the claim requires. -/
theorem C7_counterexample :
    read_elements i8Impl ⟨.U8, [2]⟩ 2 ⟨[1, 2], none⟩ = .panic
    ∧ read_elements i8Impl ⟨.U8, [2]⟩ 2 ⟨[1, 2], none⟩ ≠
        .err .InvalidElementType := by
  decide

/-- C8: a byte source whose first two bytes are not `0x0000` fails reader
construction with `InvalidFormat` (the header parse returns the error before
any byte beyond the reserved field is consumed); a source whose third byte is
not one of the six recognized type tags likewise fails construction; and a
short read at any header step — before the reserved field, before the tag
byte, before the dimension count, or inside the dimension sizes — yields the
underlying I/O error (`UnexpectedEof` on a clean end of stream), not
graceful termination. -/
theorem C8_header_validation :
    (∀ (x y : Nat) (rest : List Nat) (t : Option IoErrorKind),
      ¬(x = 0 ∧ y = 0) →
      read_header ⟨x :: y :: rest, t⟩ = .err .InvalidFormat)
    ∧ (∀ (x y v : Nat) (rest : List Nat) (t : Option IoErrorKind),
      ElementType.from_value v = .err .InvalidElementType →
      ∃ e, read_header ⟨x :: y :: v :: rest, t⟩ = .err e)
    ∧ (∀ (bs : List Nat) (t : Option IoErrorKind), bs.length < 2 →
      read_header ⟨bs, t⟩ = .err (.Io (t.getD .unexpectedEof)))
    ∧ (∀ t : Option IoErrorKind,
      read_header ⟨[0, 0], t⟩ = .err (.Io (t.getD .unexpectedEof)))
    ∧ (∀ (v : Nat) (ty : ElementType) (t : Option IoErrorKind),
      ElementType.from_value v = .ok ty →
      read_header ⟨[0, 0, v], t⟩ = .err (.Io (t.getD .unexpectedEof)))
    ∧ (∀ (v : Nat) (ty : ElementType) (n : Nat) (rest : List Nat)
        (t : Option IoErrorKind),
      ElementType.from_value v = .ok ty → rest.length < 4 * n →
      read_header ⟨0 :: 0 :: v :: n :: rest, t⟩ =
        .err (.Io (t.getD .unexpectedEof))) := by
  refine ⟨?_, ?_, ?_, ?_, ?_, ?_⟩
  · exact read_header_bad_magic
  · intro x y v rest t hv
    by_cases hxy : x = 0 ∧ y = 0
    · obtain ⟨rfl, rfl⟩ := hxy
      exact ⟨.InvalidElementType, read_header_bad_tag v rest t hv⟩
    · exact ⟨.InvalidFormat, read_header_bad_magic x y (v :: rest) t hxy⟩
  · intro bs t hlen
    have hre : readExact 2 ⟨bs, t⟩ = .err (.Io (t.getD .unexpectedEof)) := by
      unfold readExact
      rw [if_pos hlen]
    simp [read_header, hre]
  · intro t
    have hre2 : readExact 2 ⟨[0, 0], t⟩ = .ok ([0, 0], ⟨[], t⟩) := by
      unfold readExact
      rw [if_neg (by simp)]
      rfl
    have hre1 : readExact 1 ⟨([] : List Nat), t⟩ =
        .err (.Io (t.getD .unexpectedEof)) := by
      unfold readExact
      rw [if_pos (by simp)]
    simp [read_header, hre2, hre1, beNat]
  · intro v ty t hv
    have hre2 : readExact 2 ⟨[0, 0, v], t⟩ = .ok ([0, 0], ⟨[v], t⟩) := by
      unfold readExact
      rw [if_neg (by simp)]
      rfl
    have hre1 : readExact 1 ⟨[v], t⟩ = .ok ([v], ⟨[], t⟩) := by
      unfold readExact
      rw [if_neg (by simp)]
      rfl
    have hre0 : readExact 1 ⟨([] : List Nat), t⟩ =
        .err (.Io (t.getD .unexpectedEof)) := by
      unfold readExact
      rw [if_pos (by simp)]
    simp [read_header, hre2, hre1, hre0, beNat, hv]
  · intro v ty n rest t hv hlen
    have hlt2 : ¬ (0 :: 0 :: v :: n :: rest : List Nat).length < 2 := by
      simp only [List.length_cons]
      omega
    have hre2 : readExact 2 ⟨0 :: 0 :: v :: n :: rest, t⟩ =
        .ok ([0, 0], ⟨v :: n :: rest, t⟩) := by
      unfold readExact
      rw [if_neg hlt2]
      rfl
    have hlt1 : ¬ (v :: n :: rest : List Nat).length < 1 := by
      simp only [List.length_cons]
      omega
    have hre1 : readExact 1 ⟨v :: n :: rest, t⟩ =
        .ok ([v], ⟨n :: rest, t⟩) := by
      unfold readExact
      rw [if_neg hlt1]
      rfl
    have hltn : ¬ (n :: rest : List Nat).length < 1 := by
      simp only [List.length_cons]
      omega
    have hren : readExact 1 ⟨n :: rest, t⟩ = .ok ([n], ⟨rest, t⟩) := by
      unfold readExact
      rw [if_neg hltn]
      rfl
    simp [read_header, hre2, hre1, hren, beNat, hv,
      readDims_short n rest t hlen]

/-- C8 witness: concrete failing headers — bad reserved field `00 01`,
unrecognized tag `0xFF`, and truncations before the reserved field, at the
tag byte (with a non-EOF tail error), at the dimension count, and inside the
dimension sizes. -/
theorem C8_witness :
    read_header ⟨[0, 1, 8, 1], none⟩ = .err .InvalidFormat
    ∧ (∃ e, read_header ⟨[0, 0, 0xFF, 1], none⟩ = .err e)
    ∧ read_header ⟨[0], none⟩ = .err (.Io .unexpectedEof)
    ∧ read_header ⟨[0, 0], some .other⟩ = .err (.Io .other)
    ∧ read_header ⟨[0, 0, 0x08], none⟩ = .err (.Io .unexpectedEof)
    ∧ read_header ⟨[0, 0, 0x08, 2, 0, 0, 0, 1], none⟩ =
        .err (.Io .unexpectedEof) :=
  ⟨C8_header_validation.1 0 1 [8, 1] none (by decide),
   C8_header_validation.2.1 0 0 0xFF [1] none (by decide),
   C8_header_validation.2.2.1 [0] none (by decide),
   C8_header_validation.2.2.2.1 (some .other),
   C8_header_validation.2.2.2.2.1 0x08 .U8 none (by decide),
   C8_header_validation.2.2.2.2.2 0x08 .U8 2 [0, 0, 0, 1] none (by decide)
     (by decide)⟩

/-- C9: for a well-formed file — header parsed successfully, clean payload
holding exactly `num_elems()` scalars of the declared type — pulling the
flat `Elements` sequence with the matching scalar kind yields exactly
`num_elems()` successful values in payload order, after which every further
pull yields nothing (`done`): no further values and no error. -/
theorem C9_roundtrip (impl : ScalarImpl) (h : IdxHeader) (s0 : Source)
    (bs : List Nat)
    (_hparse : read_header s0 = .ok (h, ⟨bs, none⟩))
    (hcompat : impl.ty = h.elem_type)
    (hw : 0 < impl.width)
    (hlen : bs.length = num_elems h * impl.width) :
    elements_mk impl h = .ok ()
    ∧ (decodeElems impl bs (num_elems h)).length = num_elems h
    ∧ ∀ m : Nat, pull_elements impl (num_elems h + m) ⟨bs, none⟩ =
        ((decodeElems impl bs (num_elems h)).map .val ++
          List.replicate m .done, ⟨[], none⟩) := by
  refine ⟨?_, ?_, ?_⟩
  · simp [elements_mk, assert_elem_type_compatible, is_elem_type_compatible,
      hcompat.symm]
  · simp [decodeElems]
  · intro m
    exact pull_elements_main impl hw (num_elems h) m bs hlen

/-- C9 witness: a well-formed rank-1 `u8` file with two payload scalars
yields two values and then `done`. -/
theorem C9_witness :
    pull_elements u8Impl (num_elems ⟨.U8, [2]⟩ + 1) ⟨[7, 9], none⟩ =
      ((decodeElems u8Impl [7, 9] (num_elems ⟨.U8, [2]⟩)).map .val ++
        List.replicate 1 .done, ⟨[], none⟩) :=
  (C9_roundtrip u8Impl ⟨.U8, [2]⟩ ⟨[0, 0, 8, 1, 0, 0, 0, 2, 7, 9], none⟩
    [7, 9] (by decide) rfl (by decide) (by decide)).2.2 1

end Idx
